/-
Verification of the TalentKit UserService (user management business logic).

The service is shallowly embedded: the JavaScript class state
(`this.users`, `this.nextId`) becomes an explicit `ServiceState`
record, each operation becomes a pure function returning its result,
the successor state and the list of events it emits via `notify`, and
the `localStorage` persistence slot becomes an `Option (List User)`
component of a `World`.  Timestamps (`new Date().toISOString()`) are
modelled by an explicit `now : String` argument.  JavaScript dynamic
records supplied by callers become `UserData`, a record of optional
string fields; JS truthiness, `String.prototype.trim`, `parseInt` and
the email regular expression are modelled explicitly below.
-/
import Mathlib

/-- Characters treated as whitespace by the JS regex class and by trim
(ASCII whitespace plus no-break space). -/
def jsSpace (c : Char) : Bool :=
  c = ' ' || c = '\t' || c = '\n' || c = '\r' ||
  c = Char.ofNat 11 || c = Char.ofNat 12 || c = Char.ofNat 160

/-- Model of `String.prototype.trim`: strip leading and trailing whitespace. -/
def jsTrim (s : String) : String :=
  String.mk (((s.toList.dropWhile jsSpace).reverse.dropWhile jsSpace).reverse)

/-- Caller-supplied user data: a JS object whose fields may each be absent.
Source fields read by the service: firstName, lastName, email, phone,
userType, status. -/
structure UserData where
  firstName : Option String := none
  lastName : Option String := none
  email : Option String := none
  phone : Option String := none
  userType : Option String := none
  status : Option String := none
deriving Repr, DecidableEq

/-- A stored user record as built by `createUser` (and possibly updated). -/
structure User where
  id : Nat
  firstName : String
  lastName : String
  email : String
  phone : String
  userType : String
  status : String
  createdAt : String
  lastActive : String
  lastModified : Option String := none
deriving Repr, DecidableEq

/-- JS truthiness of an optional string field: present and non-empty. -/
def truthyS : Option String → Bool
  | none => false
  | some s => s ≠ ""

/-- The required-field test of `validateUser`:
`!userData[field] || userData[field].trim() === ''`. -/
def jsBlank : Option String → Bool
  | none => true
  | some s => s = "" || jsTrim s = ""

/-- Model of the regex `^[^\s@]+@[^\s@]+\.[^\s@]+$` used by `isValidEmail`:
the string splits as `local@domain` with exactly one `@`, the local part
non-empty and whitespace-free, the domain whitespace-free and containing a
dot that has at least one character on each side. -/
def isValidEmail (email : String) : Bool :=
  let cs := email.toList
  let localPart := cs.takeWhile (fun c => c ≠ '@')
  match cs.dropWhile (fun c => c ≠ '@') with
  | '@' :: domain =>
      !localPart.isEmpty && localPart.all (fun c => !(jsSpace c)) &&
      domain.all (fun c => !(jsSpace c) && c ≠ '@') &&
      ((domain.drop 1).dropLast.contains '.')
  | _ => false

/-- Result of `validateUser`: `{isValid, errors}`. -/
structure Validation where
  isValid : Bool
  errors : List String
deriving Repr, DecidableEq

/-- Field lookup `userData[field]` for the required-field loop. -/
def getField (u : UserData) : String → Option String
  | "firstName" => u.firstName
  | "lastName" => u.lastName
  | "email" => u.email
  | "phone" => u.phone
  | "userType" => u.userType
  | "status" => u.status
  | _ => none

/-- The `errors` array built by `validateUser`: required-field messages
accumulated over the fixed field list, then the email-format, user-type and
status checks. -/
def validationErrors (u : UserData) : List String :=
  let required := ["firstName", "lastName", "email", "phone", "userType"]
  let errors := required.foldl
    (fun acc f => if jsBlank (getField u f) then acc ++ [f ++ " is required"] else acc) []
  let errors := match u.email with
    | some e => if e ≠ "" && !(isValidEmail e) then errors ++ ["Invalid email format"] else errors
    | none => errors
  let validTypes := ["client", "provider", "admin"]
  let errors := match u.userType with
    | some t => if t ≠ "" && !(validTypes.contains t) then errors ++ ["Invalid user type"] else errors
    | none => errors
  let validStatuses := ["active", "inactive"]
  let errors := match u.status with
    | some st => if st ≠ "" && !(validStatuses.contains st) then errors ++ ["Invalid status"] else errors
    | none => errors
  errors

/-- Model of `UserService.validateUser`: the accumulated error array with
`isValid` defined as `errors.length === 0`. -/
def validateUser (u : UserData) : Validation :=
  { isValid := (validationErrors u).length = 0, errors := validationErrors u }

/-- Events published through `notify(event, data)`; every subscriber
receives every emitted event, so an operation's effect on subscribers is
fully described by the list of events it emits. -/
inductive Event where
  | userCreated (u : User)
  | usersChanged (us : List User)
  | userUpdated (original updated : User)
  | userDeleted (u : User)
  | usersLoaded (us : List User)
  | usersSaved (us : List User)
  | bulkImport (success : List User) (failed : List (UserData × String))
  | error (message : String) (ty : String)
deriving Repr, DecidableEq

/-- In-memory state of a `UserService` instance: `this.users` and
`this.nextId` (observer list omitted: events model notification). -/
structure ServiceState where
  users : List User
  nextId : Nat
deriving Repr, DecidableEq

/-- Constructor state: `users = []`, `nextId = 1`. -/
def initialService : ServiceState := { users := [], nextId := 1 }

/-- Result of a service operation: the returned value
(`{success:true, data}` resp. `{success:false, error}` becomes `Except`),
the state after the call, and the events emitted during the call. -/
structure Outcome (α : Type) where
  result : Except String α
  state : ServiceState
  events : List Event

/-- Model of `findUserByEmail`: first user whose email strictly equals the
argument. -/
def findUserByEmail (users : List User) (email : String) : Option User :=
  users.find? (fun u => u.email = email)

/-- Model of `createUser`: validate, reject duplicate email, build the new
record with `id = nextId++`, timestamps `now`, `status := status || 'active'`,
push it and emit `userCreated` then `usersChanged`; any thrown error is
caught, emitted as an `error` event of type `create` and returned as a
failure result. -/
def createUser (st : ServiceState) (now : String) (d : UserData) : Outcome User :=
  let v := validateUser d
  if !v.isValid then
    let msg := String.intercalate ", " v.errors
    ⟨.error msg, st, [.error msg "create"]⟩
  else
    match findUserByEmail st.users (d.email.getD "") with
    | some _ =>
        let msg := "A user with this email already exists"
        ⟨.error msg, st, [.error msg "create"]⟩
    | none =>
        let newUser : User :=
          { id := st.nextId
            firstName := d.firstName.getD ""
            lastName := d.lastName.getD ""
            email := d.email.getD ""
            phone := d.phone.getD ""
            userType := d.userType.getD ""
            status := (match d.status with
              | some s => if s = "" then "active" else s
              | none => "active")
            createdAt := now
            lastActive := now
            lastModified := none }
        let users := st.users ++ [newUser]
        ⟨.ok newUser, { users := users, nextId := st.nextId + 1 },
          [.userCreated newUser, .usersChanged users]⟩

/-- The concrete valid input of the spec's first scenario in section 8. -/
def scenarioA : UserData :=
  { firstName := some "A", lastName := some "B", email := some "a@b.com",
    phone := some "1", userType := some "client" }

/-- The id argument of `getUserById`, `updateUser` and `deleteUser`: a JS
number or a JS string. -/
inductive IdArg where
  | num (n : Nat)
  | str (s : String)
deriving Repr, DecidableEq

/-- Numeric value of the leading decimal digits of a character list;
`none` when there is no leading digit (`parseInt` yields `NaN`). -/
def digitsVal (cs : List Char) : Option Nat :=
  let ds := cs.takeWhile Char.isDigit
  if ds.isEmpty then none
  else some (ds.foldl (fun a c => a * 10 + (c.toNat - 48)) 0)

/-- Model of JS `parseInt` on a string (base 10): skip leading whitespace,
optional sign, then the leading run of decimal digits; `none` models `NaN`. -/
def jsParseInt (s : String) : Option Int :=
  match s.toList.dropWhile jsSpace with
  | '-' :: rest => (digitsVal rest).map (fun v => -(v : Int))
  | '+' :: rest => (digitsVal rest).map (fun v => (v : Int))
  | rest => (digitsVal rest).map (fun v => (v : Int))

/-- The value `parseInt(id)` for either form of the id argument (a JS number
is converted through its decimal string, which is the identity on a Nat). -/
def parseIntArg : IdArg → Option Int
  | .num n => some (n : Int)
  | .str s => jsParseInt s

/-- The strict comparison `user.id === parseInt(id)`; false when `parseInt`
returned `NaN`. -/
def idEq (pid : Option Int) (uid : Nat) : Bool :=
  pid = some (uid : Int)

/-- Combined model of `findIndex` followed by indexing `this.users[i]`:
index and element of the first match. -/
def findWithIdx (p : User → Bool) : List User → Option (Nat × User)
  | [] => none
  | u :: us => if p u then some (0, u) else (findWithIdx p us).map (fun r => (r.1 + 1, r.2))

/-- The shallow merge `{...this.users[userIndex], ...userData,
lastModified: now}`: fields present in the patch override, the rest are
retained, `lastModified` is stamped. -/
def applyPatch (u : User) (d : UserData) (now : String) : User :=
  { id := u.id
    firstName := d.firstName.getD u.firstName
    lastName := d.lastName.getD u.lastName
    email := d.email.getD u.email
    phone := d.phone.getD u.phone
    userType := d.userType.getD u.userType
    status := d.status.getD u.status
    createdAt := u.createdAt
    lastActive := u.lastActive
    lastModified := some now }

/-- Body of `updateUser` after `parseInt(id)` has been computed (the source
evaluates `parseInt(id)` on the same argument at each of its uses). -/
def updateUserCore (st : ServiceState) (now : String) (pid : Option Int) (d : UserData) :
    Outcome User :=
  match findWithIdx (fun u => idEq pid u.id) st.users with
  | none => ⟨.error "User not found", st, [.error "User not found" "update"]⟩
  | some (idx, original) =>
      let v := validateUser d
      if !v.isValid then
        let msg := String.intercalate ", " v.errors
        ⟨.error msg, st, [.error msg "update"]⟩
      else if (match findUserByEmail st.users (d.email.getD "") with
               | some ex => !(idEq pid ex.id)
               | none => false) then
        let msg := "A user with this email already exists"
        ⟨.error msg, st, [.error msg "update"]⟩
      else
        let updated := applyPatch original d now
        let users := st.users.set idx updated
        ⟨.ok updated, { st with users := users },
          [.userUpdated original updated, .usersChanged users]⟩

/-- Model of `updateUser`: locate the record by `parseInt(id)`, validate the
incoming patch, reject an email owned by a different record, merge and stamp
`lastModified`; failures are caught and reported as an `error` event of type
`update` plus a failure result. -/
def updateUser (st : ServiceState) (now : String) (idArg : IdArg) (d : UserData) :
    Outcome User :=
  updateUserCore st now (parseIntArg idArg) d

/-- Body of `deleteUser` after `parseInt(id)` has been computed. -/
def deleteUserCore (st : ServiceState) (pid : Option Int) : Outcome User :=
  match findWithIdx (fun u => idEq pid u.id) st.users with
  | none => ⟨.error "User not found", st, [.error "User not found" "delete"]⟩
  | some (idx, deleted) =>
      let users := st.users.eraseIdx idx
      ⟨.ok deleted, { st with users := users },
        [.userDeleted deleted, .usersChanged users]⟩

/-- Model of `deleteUser`: locate by `parseInt(id)`, splice the record out,
emit `userDeleted` then `usersChanged`; a missing id is caught and reported
as an `error` event of type `delete` plus a failure result. -/
def deleteUser (st : ServiceState) (idArg : IdArg) : Outcome User :=
  deleteUserCore st (parseIntArg idArg)

/-- Model of `getUserById`: first user with `user.id === parseInt(id)`. -/
def getUserById (st : ServiceState) (idArg : IdArg) : Option User :=
  st.users.find? (fun u => idEq (parseIntArg idArg) u.id)

/-- Model of `getAllUsers` at the value level: the snapshot returned to the
caller (the reference-level shallow-copy behaviour is modelled separately
in `RefModel`). -/
def getAllUsers (st : ServiceState) : List User :=
  st.users

/-- Accumulated result of `importUsers`: the `{success, failed}` record,
the final state and the emitted events. -/
structure ImportOutcome where
  success : List User
  failed : List (UserData × String)
  state : ServiceState
  events : List Event
deriving Repr

/-- The `for (const userData of usersData)` loop of `importUsers`: one
`createUser` per entry in order, partitioning results. -/
def importLoop (st : ServiceState) (now : String) : List UserData → ImportOutcome
  | [] => ⟨[], [], st, []⟩
  | d :: ds =>
      let o := createUser st now d
      let rest := importLoop o.state now ds
      match o.result with
      | .ok u => ⟨u :: rest.success, rest.failed, rest.state, o.events ++ rest.events⟩
      | .error m => ⟨rest.success, (d, m) :: rest.failed, rest.state, o.events ++ rest.events⟩

/-- Model of `importUsers`: run the loop, then emit a single `bulkImport`
event carrying the results. -/
def importUsers (st : ServiceState) (now : String) (usersData : List UserData) :
    ImportOutcome :=
  let r := importLoop st now usersData
  { r with events := r.events ++ [.bulkImport r.success r.failed] }

/-- A service instance together with the `localStorage` slot
`appointme_users` (`none` models an absent key; `JSON.parse ∘ JSON.stringify`
is the identity on the record list). -/
structure World where
  service : ServiceState
  storage : Option (List User)
deriving Repr

/-- A fresh page: constructor state and empty storage. -/
def initialWorld : World := { service := initialService, storage := none }

/-- Model of `saveUsers`: write `this.users` to the storage slot and emit
`usersSaved`. -/
def saveUsers (w : World) : World × List Event :=
  ({ w with storage := some w.service.users }, [.usersSaved w.service.users])

/-- The three canned records of `loadSampleData`. -/
def sampleData : List UserData :=
  [{ firstName := some "John", lastName := some "Doe",
     email := some "john.doe@example.com", phone := some "+1 (555) 123-4567",
     userType := some "client", status := some "active" },
   { firstName := some "Dr. Sarah", lastName := some "Smith",
     email := some "sarah.smith@clinic.com", phone := some "+1 (555) 987-6543",
     userType := some "provider", status := some "active" },
   { firstName := some "Admin", lastName := some "User",
     email := some "admin@appointme.com", phone := some "+1 (555) 000-0000",
     userType := some "admin", status := some "active" }]

/-- The `for` loop of `loadSampleData`: drive each sample record through
`createUser`. -/
def createAll (st : ServiceState) (now : String) : List UserData → ServiceState × List Event
  | [] => (st, [])
  | d :: ds =>
      let o := createUser st now d
      let rest := createAll o.state now ds
      (rest.1, o.events ++ rest.2)

/-- Model of `loadUsers`: when the slot holds data, replace `this.users`
with it and set `nextId = Math.max(...ids, 0) + 1`; otherwise seed the
sample data through `createUser`; emit `usersLoaded` with the final list. -/
def loadUsers (w : World) (now : String) : World × List Event :=
  match w.storage with
  | some us =>
      let st : ServiceState := { users := us, nextId := (us.map (·.id)).foldr max 0 + 1 }
      ({ w with service := st }, [.usersLoaded us])
  | none =>
      let (st, evs) := createAll w.service now sampleData
      ({ w with service := st }, evs ++ [.usersLoaded st.users])

/-- One public operation applied to a `World`, for reasoning about
operation sequences. -/
inductive Op where
  | create (now : String) (d : UserData)
  | update (now : String) (idArg : IdArg) (d : UserData)
  | delete (idArg : IdArg)
  | save
  | load (now : String)
deriving Repr

/-- Apply one operation: new world and the events it emitted. -/
def stepOp (w : World) : Op → World × List Event
  | .create now d =>
      let o := createUser w.service now d
      ({ w with service := o.state }, o.events)
  | .update now i d =>
      let o := updateUser w.service now i d
      ({ w with service := o.state }, o.events)
  | .delete i =>
      let o := deleteUser w.service i
      ({ w with service := o.state }, o.events)
  | .save => saveUsers w
  | .load now => loadUsers w now

/-- Run a sequence of operations, concatenating the emitted events. -/
def runOps (w : World) : List Op → World × List Event
  | [] => (w, [])
  | op :: ops =>
      let s := stepOp w op
      let rest := runOps s.1 ops
      (rest.1, s.2 ++ rest.2)

/-- The ids assigned by `createUser` during a trace, in emission order
(one `userCreated` event per successful create). -/
def assignedIds (events : List Event) : List Nat :=
  events.filterMap (fun e => match e with | .userCreated u => some u.id | _ => none)

namespace RefModel

/-- Reference-level view of the store for the aliasing behaviour of
`getAllUsers`: record objects live in a heap (addresses are indices into
`heap`) and `this.users` is an array of references. -/
structure Store where
  heap : List User
  userRefs : List Nat
deriving Repr, DecidableEq

/-- The spread copy `[...this.users]`: a fresh array holding the same
record references as the store's array. -/
def getAllUsersRefs (st : Store) : List Nat :=
  st.userRefs

/-- Overwrite the `firstName` of the heap record at address `r`; this is a
mutation the caller can perform on a record object it received. -/
def writeAt (r : Nat) (v : String) : List User → List User
  | [] => []
  | u :: us =>
      match r with
      | 0 => { u with firstName := v } :: us
      | r' + 1 => u :: writeAt r' v us

/-- The caller assigns `firstName` through a record reference `r`. -/
def setFirstNameRef (st : Store) (r : Nat) (v : String) : Store :=
  { st with heap := writeAt r v st.heap }

/-- The records the store holds, read through its reference array. -/
def records (st : Store) : List (Option User) :=
  st.userRefs.map (fun r => st.heap[r]?)

end RefModel

/-- Description from the spec of the validation error list: one required
message per blank field in the fixed field order, then the email-format,
user-type and status messages when those checks apply and fail. -/
def specValidationErrors (u : UserData) : List String :=
  (if jsBlank u.firstName then ["firstName is required"] else []) ++
  (if jsBlank u.lastName then ["lastName is required"] else []) ++
  (if jsBlank u.email then ["email is required"] else []) ++
  (if jsBlank u.phone then ["phone is required"] else []) ++
  (if jsBlank u.userType then ["userType is required"] else []) ++
  (if truthyS u.email && !(isValidEmail (u.email.getD "")) then ["Invalid email format"] else []) ++
  (if truthyS u.userType && !(["client", "provider", "admin"].contains (u.userType.getD ""))
   then ["Invalid user type"] else []) ++
  (if truthyS u.status && !(["active", "inactive"].contains (u.status.getD ""))
   then ["Invalid status"] else [])

/-- Invariant of a service instance: every stored id is below the counter. -/
def serviceInv (st : ServiceState) : Prop :=
  ∀ u ∈ st.users, u.id < st.nextId

/-- Whether an operation is `loadUsers`. -/
def isLoad : Op → Bool
  | .load _ => true
  | _ => false

/-- Concrete valid inputs with distinct emails, for counterexamples and
witnesses. -/
def inputA : UserData :=
  { firstName := some "A", lastName := some "A", email := some "a@x.com",
    phone := some "1", userType := some "client" }

def inputB : UserData :=
  { firstName := some "B", lastName := some "B", email := some "b@x.com",
    phone := some "1", userType := some "client" }

def inputC : UserData :=
  { firstName := some "C", lastName := some "C", email := some "c@x.com",
    phone := some "1", userType := some "client" }

/-- Operation sequence exhibiting id reuse through `loadUsers`: create id 1,
save, create id 2, delete id 2, reload the saved snapshot (which resets
`nextId` to max id + 1 = 2), create again. -/
def reuseOps : List Op :=
  [Op.create "t1" inputA, Op.save, Op.create "t2" inputB,
   Op.delete (IdArg.num 2), Op.load "t3", Op.create "t4" inputC]

/-- A record as stored after `createUser(inputA)` at time `t`. -/
def user1 : User :=
  { id := 1, firstName := "A", lastName := "A", email := "a@x.com", phone := "1",
    userType := "client", status := "active", createdAt := "t", lastActive := "t" }

/-- A store holding exactly `user1`. -/
def oneUserState : ServiceState := { users := [user1], nextId := 2 }

/-- The empty patch: a JS object with none of the known fields. -/
def emptyInput : UserData := {}

/-- Whether `pat` occurs at the head of `cs`. -/
def leadsWith : List Char → List Char → Bool
  | [], _ => true
  | _ :: _, [] => false
  | p :: ps, c :: cs => p = c && leadsWith ps cs

/-- Whether `pat` occurs anywhere in `cs`. -/
def occursIn (pat : List Char) : List Char → Bool
  | [] => leadsWith pat []
  | c :: cs => leadsWith pat (c :: cs) || occursIn pat cs

/-- Substring test: `pat` occurs in `s`. -/
def hasSub (s pat : String) : Bool :=
  occursIn pat.toList s.toList

/-- The duplicate-email message thrown by `createUser` and `updateUser`. -/
def dupEmailMsg : String := "A user with this email already exists"

/-- A second valid input whose email collides with `user1` but whose other
fields all differ. -/
def inputZ : UserData :=
  { firstName := some "Z", lastName := some "Q", email := some "a@x.com",
    phone := some "9", userType := some "admin", status := some "inactive" }

/-- An input whose email equals the live record's email but whose other
required fields are absent. -/
def dupOnlyEmail : UserData := { email := some "a@x.com" }

/-- The one-record reference store: the heap holds `user1` at address 0 and
the store's array references it. -/
def refStore0 : RefModel.Store := { heap := [user1], userRefs := [0] }

/-- Whether an event is a `bulkImport` summary. -/
def isBulk : Event → Bool
  | .bulkImport _ _ => true
  | _ => false

/-- The middle entry of the spec's import scenario: a record missing its
email. -/
def missingEmail : UserData :=
  { firstName := some "C", lastName := some "D", phone := some "2",
    userType := some "client" }

/-- A world made of a service state and the persistence slot it writes to. -/
def mkWorld (st : ServiceState) (slot : Option (List User)) : World :=
  { service := st, storage := slot }

/-- A fresh service instance in front of an existing persistence slot. -/
def freshOn (slot : Option (List User)) : World :=
  { service := initialService, storage := slot }

/-- A record with id 3 and its store, for the coercion witness. -/
def user3 : User :=
  { id := 3, firstName := "C", lastName := "C", email := "c@x.com", phone := "1",
    userType := "client", status := "active", createdAt := "t", lastActive := "t" }

def threeState : ServiceState := { users := [user3], nextId := 4 }

example : (validateUser scenarioA).isValid = true := by decide

example : (validateUser { email := some "bad" }).errors =
    ["firstName is required", "lastName is required", "phone is required",
     "userType is required", "Invalid email format"] := by decide

example : jsParseInt "3x" = some 3 := by decide
example : jsParseInt " -12abc" = some (-12) := by decide
example : jsParseInt "x" = none := by decide

theorem assignedIds_append (a b : List Event) :
    assignedIds (a ++ b) = assignedIds a ++ assignedIds b := by
  simp [assignedIds, List.filterMap_append]

theorem findWithIdx_mem {p : User → Bool} :
    ∀ {l : List User} {i : Nat} {u : User}, findWithIdx p l = some (i, u) → u ∈ l := by
  intro l
  induction l with
  | nil => intro i u h; simp [findWithIdx] at h
  | cons a as ih =>
      intro i u h
      simp only [findWithIdx] at h
      split at h
      · rw [Option.some.injEq, Prod.mk.injEq] at h
        exact h.2 ▸ List.mem_cons_self a as
      · rw [Option.map_eq_some'] at h
        obtain ⟨r, hr, hru⟩ := h
        rw [Prod.mk.injEq] at hru
        exact List.mem_cons_of_mem a (hru.2 ▸ ih hr)

theorem createUser_bound (st : ServiceState) (now : String) (d : UserData)
    (hinv : serviceInv st) :
    serviceInv (createUser st now d).state ∧
    st.nextId ≤ (createUser st now d).state.nextId ∧
    (∀ i ∈ assignedIds (createUser st now d).events,
        st.nextId ≤ i ∧ i < (createUser st now d).state.nextId) ∧
    List.Pairwise (· < ·) (assignedIds (createUser st now d).events) := by
  by_cases hv : (validateUser d).isValid
  · cases hfind : findUserByEmail st.users (d.email.getD "") with
    | some u =>
        refine ⟨?_, ?_, ?_, ?_⟩ <;>
          simp only [createUser, hv, hfind, Bool.not_true, Bool.false_eq_true,
            if_false, assignedIds] <;>
          simp [serviceInv] <;> exact fun u hu => hinv u hu
    | none =>
        refine ⟨?_, ?_, ?_, ?_⟩ <;>
          simp only [createUser, hv, hfind, Bool.not_true, Bool.false_eq_true,
            if_false, assignedIds]
        · intro u hu
          rcases List.mem_append.1 hu with h | h
          · exact Nat.lt_succ_of_lt (hinv u h)
          · rw [List.mem_singleton] at h
            subst h
            exact Nat.lt_succ_self _
        · exact Nat.le_succ _
        · intro i hi
          simp [List.filterMap_cons] at hi
          subst hi
          exact ⟨Nat.le_refl _, Nat.lt_succ_self _⟩
        · simp [List.filterMap_cons]
  · rw [Bool.not_eq_true] at hv
    refine ⟨?_, ?_, ?_, ?_⟩ <;>
      simp only [createUser, hv, Bool.not_false, if_true, assignedIds] <;>
      simp [serviceInv] <;> exact fun u hu => hinv u hu

theorem updateUserCore_bound (st : ServiceState) (now : String) (pid : Option Int)
    (d : UserData) (hinv : serviceInv st) :
    serviceInv (updateUserCore st now pid d).state ∧
    (updateUserCore st now pid d).state.nextId = st.nextId ∧
    assignedIds (updateUserCore st now pid d).events = [] := by
  cases hfind : findWithIdx (fun u => idEq pid u.id) st.users with
  | none =>
      refine ⟨?_, ?_, ?_⟩ <;> simp only [updateUserCore, hfind, assignedIds] <;>
        first
        | exact hinv
        | rfl
        | simp
  | some r =>
      obtain ⟨idx, original⟩ := r
      by_cases hv : (validateUser d).isValid
      · by_cases hdup : (match findUserByEmail st.users (d.email.getD "") with
            | some ex => !(idEq pid ex.id)
            | none => false)
        · refine ⟨?_, ?_, ?_⟩ <;>
            simp only [updateUserCore, hfind, hv, hdup, Bool.not_true,
              Bool.false_eq_true, if_false, if_true, assignedIds] <;>
            first
            | exact hinv
            | rfl
            | simp
        · rw [Bool.not_eq_true] at hdup
          refine ⟨?_, ?_, ?_⟩ <;>
            simp only [updateUserCore, hfind, hv, hdup, Bool.not_true,
              Bool.false_eq_true, if_false, assignedIds]
          · intro u hu
            rcases List.mem_or_eq_of_mem_set hu with h | h
            · exact hinv u h
            · subst h
              exact hinv original (findWithIdx_mem hfind)
          · simp
      · rw [Bool.not_eq_true] at hv
        refine ⟨?_, ?_, ?_⟩ <;>
          simp only [updateUserCore, hfind, hv, Bool.not_false, if_true, assignedIds] <;>
          first
          | exact hinv
          | rfl
          | simp

theorem deleteUserCore_bound (st : ServiceState) (pid : Option Int)
    (hinv : serviceInv st) :
    serviceInv (deleteUserCore st pid).state ∧
    (deleteUserCore st pid).state.nextId = st.nextId ∧
    assignedIds (deleteUserCore st pid).events = [] := by
  cases hfind : findWithIdx (fun u => idEq pid u.id) st.users with
  | none =>
      refine ⟨?_, ?_, ?_⟩ <;> simp only [deleteUserCore, hfind, assignedIds] <;>
        first
        | exact hinv
        | rfl
        | simp
  | some r =>
      obtain ⟨idx, deleted⟩ := r
      refine ⟨?_, ?_, ?_⟩ <;> simp only [deleteUserCore, hfind, assignedIds]
      all_goals first
        | (intro u hu; exact hinv u ((List.eraseIdx_sublist st.users _).mem hu))
        | rfl
        | simp

theorem stepOp_bound (w : World) (op : Op) (hop : isLoad op = false)
    (hinv : serviceInv w.service) :
    serviceInv (stepOp w op).1.service ∧
    w.service.nextId ≤ (stepOp w op).1.service.nextId ∧
    (∀ i ∈ assignedIds (stepOp w op).2,
        w.service.nextId ≤ i ∧ i < (stepOp w op).1.service.nextId) ∧
    List.Pairwise (· < ·) (assignedIds (stepOp w op).2) := by
  cases op with
  | create now d => exact createUser_bound w.service now d hinv
  | update now i d =>
      obtain ⟨h1, h2, h3⟩ := updateUserCore_bound w.service now (parseIntArg i) d hinv
      exact ⟨h1, h2.ge, by simp [stepOp, updateUser, h3], by simp [stepOp, updateUser, h3]⟩
  | delete i =>
      obtain ⟨h1, h2, h3⟩ := deleteUserCore_bound w.service (parseIntArg i) hinv
      exact ⟨h1, h2.ge, by simp [stepOp, deleteUser, h3], by simp [stepOp, deleteUser, h3]⟩
  | save => exact ⟨hinv, Nat.le_refl _, by simp [stepOp, saveUsers, assignedIds], by
      simp [stepOp, saveUsers, assignedIds]⟩
  | load now => simp [isLoad] at hop

theorem runOps_bound (ops : List Op) : ∀ (w : World),
    (∀ op ∈ ops, isLoad op = false) → serviceInv w.service →
    serviceInv (runOps w ops).1.service ∧
    w.service.nextId ≤ (runOps w ops).1.service.nextId ∧
    (∀ i ∈ assignedIds (runOps w ops).2,
        w.service.nextId ≤ i ∧ i < (runOps w ops).1.service.nextId) ∧
    List.Pairwise (· < ·) (assignedIds (runOps w ops).2) := by
  induction ops with
  | nil =>
      intro w _ hinv
      exact ⟨hinv, Nat.le_refl _, by simp [runOps, assignedIds], by simp [runOps, assignedIds]⟩
  | cons op ops ih =>
      intro w h hinv
      obtain ⟨s1inv, s1mono, s1rng, s1pw⟩ :=
        stepOp_bound w op (h op (List.mem_cons_self _ _)) hinv
      obtain ⟨finv, fmono, frng, fpw⟩ :=
        ih (stepOp w op).1 (fun o ho => h o (List.mem_cons_of_mem _ ho)) s1inv
      simp only [runOps]
      refine ⟨finv, Nat.le_trans s1mono fmono, ?_, ?_⟩
      · intro i hi
        rw [assignedIds_append, List.mem_append] at hi
        rcases hi with hi | hi
        · exact ⟨(s1rng i hi).1, Nat.lt_of_lt_of_le (s1rng i hi).2 fmono⟩
        · exact ⟨Nat.le_trans s1mono (frng i hi).1, (frng i hi).2⟩
      · rw [assignedIds_append]
        exact List.pairwise_append.2 ⟨s1pw, fpw, fun a ha b hb =>
          Nat.lt_of_lt_of_le (s1rng a ha).2 (frng b hb).1⟩

/-- Claim C1, as stated, is false: over arbitrary operation sequences on one
service instance the assigned ids are not strictly increasing.  In the
concrete trace `reuseOps` the service assigns ids 1, 2, 2: after
`loadUsers` restores a snapshot saved before the second create, `nextId`
is recomputed as max stored id + 1, and the id 2 — assigned earlier and
freed by `deleteUser` — is reassigned by a later `createUser`. -/
theorem C1_counterexample :
    assignedIds (runOps initialWorld reuseOps).2 = [1, 2, 2] ∧
    ¬ List.Pairwise (· < ·) (assignedIds (runOps initialWorld reuseOps).2) := by
  constructor
  · decide
  · decide

/-- Claim C1 (amended): for every sequence of operations on a service
instance that contains no `loadUsers` call, `createUser` assigns ids in
strictly increasing order — each new id is strictly greater than every id
assigned before, so ids are never reused and a deleted id is never
reassigned. -/
theorem C1_ids_strictly_increasing (ops : List Op)
    (h : ∀ op ∈ ops, isLoad op = false) :
    List.Pairwise (· < ·) (assignedIds (runOps initialWorld ops).2) :=
  (runOps_bound ops initialWorld h
    (fun u hu => by simp [initialWorld, initialService] at hu)).2.2.2

/-- Witness for C1: the amended theorem applied to a concrete load-free
trace (create, create, delete the second record, create again). -/
theorem C1_witness :
    List.Pairwise (· < ·) (assignedIds (runOps initialWorld
      [Op.create "t1" inputA, Op.create "t2" inputB,
       Op.delete (IdArg.num 2), Op.create "t3" inputC]).2) :=
  C1_ids_strictly_increasing _ (by decide)

theorem findWithIdx_eq_none {p : User → Bool} :
    ∀ {l : List User}, (∀ u ∈ l, p u = false) → findWithIdx p l = none := by
  intro l
  induction l with
  | nil => intro _; rfl
  | cons a as ih =>
      intro h
      simp only [findWithIdx, h a (List.mem_cons_self a as), Bool.false_eq_true, if_false]
      rw [ih (fun u hu => h u (List.mem_cons_of_mem a hu))]
      rfl

/-- Claim C2, as stated, is false on the code: `updateUser` on an absent id
does emit an event to subscribers — the `error` notification produced by the
catch block.  Concretely, updating id 2 in a store holding only id 1 emits
`error {message: "User not found", type: "update"}`, so the emitted event
list is not empty. -/
theorem C2_counterexample :
    (updateUser oneUserState "t" (IdArg.num 2) emptyInput).events =
      [Event.error "User not found" "update"] ∧
    (updateUser oneUserState "t" (IdArg.num 2) emptyInput).events ≠ [] := by
  constructor
  · decide
  · decide

/-- Claim C2 (amended): for every store state and every id matching no
stored record, `updateUser(id, data)` fails with the not-found error,
leaves the record collection unchanged, and emits no event other than the
single `error {message: "User not found", type: "update"}` notification (in
particular no `userUpdated` and no `usersChanged` event). -/
theorem C2_update_absent_id (st : ServiceState) (now : String) (idArg : IdArg)
    (d : UserData) (h : ∀ u ∈ st.users, idEq (parseIntArg idArg) u.id = false) :
    (updateUser st now idArg d).result = Except.error "User not found" ∧
    (updateUser st now idArg d).state = st ∧
    (updateUser st now idArg d).events = [Event.error "User not found" "update"] := by
  have hf := findWithIdx_eq_none h
  refine ⟨?_, ?_, ?_⟩ <;> simp [updateUser, updateUserCore, hf]

/-- Witness for C2: updating id 2 in the one-record store with id 1. -/
theorem C2_witness :
    (updateUser oneUserState "t" (IdArg.num 2) emptyInput).result =
      Except.error "User not found" ∧
    (updateUser oneUserState "t" (IdArg.num 2) emptyInput).state = oneUserState :=
  ⟨(C2_update_absent_id oneUserState "t" (IdArg.num 2) emptyInput (by decide)).1,
   (C2_update_absent_id oneUserState "t" (IdArg.num 2) emptyInput (by decide)).2.1⟩

/-- Claim C3, as stated, is false on the code: validation runs before the
duplicate-email check, so an input whose email equals a live record's email
but whose other required fields are blank fails with the joined validation
messages — a message that does not contain "already exists". -/
theorem C3_counterexample :
    (createUser oneUserState "t" dupOnlyEmail).result =
      Except.error ("firstName is required, lastName is required, " ++
        "phone is required, userType is required") ∧
    hasSub ("firstName is required, lastName is required, " ++
        "phone is required, userType is required") "already exists" = false := by
  constructor
  · rfl
  · decide

/-- Claim C3 (amended): for every store containing a live record with email
`e`, `createUser` on any input that passes validation and whose email equals
`e` (exact string match) fails with the duplicate-email error — whose
message contains "already exists" — regardless of the other fields of the
input, and the store afterwards contains exactly the same records as
before the call. -/
theorem C3_duplicate_email (st : ServiceState) (now : String) (d : UserData)
    (e : String) (hmail : d.email = some e)
    (hdup : ∃ u ∈ st.users, u.email = e)
    (hv : (validateUser d).isValid = true) :
    (createUser st now d).result = Except.error dupEmailMsg ∧
    hasSub dupEmailMsg "already exists" = true ∧
    (createUser st now d).state = st := by
  have hsome : (findUserByEmail st.users e).isSome := by
    rw [findUserByEmail, List.find?_isSome]
    obtain ⟨u, hu, he⟩ := hdup
    exact ⟨u, hu, by simp [he]⟩
  obtain ⟨ex, hex⟩ := Option.isSome_iff_exists.1 hsome
  refine ⟨?_, by decide, ?_⟩ <;>
    simp [createUser, hv, hmail, hex, dupEmailMsg]

/-- Witness for C3: `inputZ` collides with `user1` on email while every
other field differs; the create fails with the duplicate message and the
store is unchanged. -/
theorem C3_witness :
    (createUser oneUserState "t" inputZ).result = Except.error dupEmailMsg ∧
    (createUser oneUserState "t" inputZ).state = oneUserState :=
  ⟨(C3_duplicate_email oneUserState "t" inputZ "a@x.com" rfl
      ⟨user1, by decide, by decide⟩ (by decide)).1,
   (C3_duplicate_email oneUserState "t" inputZ "a@x.com" rfl
      ⟨user1, by decide, by decide⟩ (by decide)).2.2⟩

theorem writeAt_getElem (v : String) :
    ∀ (l : List User) (r : Nat),
      (RefModel.writeAt r v l)[r]? = (l[r]?).map (fun u => { u with firstName := v }) := by
  intro l
  induction l with
  | nil => intro r; simp [RefModel.writeAt]
  | cons a as ih =>
      intro r
      cases r with
      | zero => simp [RefModel.writeAt]
      | succ r' => simpa [RefModel.writeAt] using ih r'

/-- Claim C4, as stated, is false on the code: `[...this.users]` is a
shallow copy, so the record objects in the returned array are the store's
own records.  Concretely, assigning `firstName` through the first element
of the array returned by `getAllUsers` changes the records held by the
store. -/
theorem C4_counterexample :
    RefModel.records (RefModel.setFirstNameRef refStore0
      ((RefModel.getAllUsersRefs refStore0).headD 99) "X") ≠
    RefModel.records refStore0 := by
  decide

/-- Claim C4 (amended): `getAllUsers` returns a fresh array holding the
store's own record references (a shallow copy): mutations of the returned
sequence itself never change the store's sequence of references, but
writing a field of a record reached through the returned sequence does
change the record held by the store. -/
theorem C4_shallow_copy (st : RefModel.Store) (r : Nat) (v : String)
    (hmem : r ∈ RefModel.getAllUsersRefs st) :
    RefModel.getAllUsersRefs st = st.userRefs ∧
    (RefModel.setFirstNameRef st r v).userRefs = st.userRefs ∧
    (RefModel.setFirstNameRef st r v).heap[r]? =
      (st.heap[r]?).map (fun u => { u with firstName := v }) := by
  refine ⟨rfl, rfl, ?_⟩
  exact writeAt_getElem v st.heap r

/-- Witness for C4: writing through the reference returned for `user1`
replaces the stored record's `firstName` with "X". -/
theorem C4_witness :
    (RefModel.setFirstNameRef refStore0 0 "X").userRefs = refStore0.userRefs ∧
    (RefModel.setFirstNameRef refStore0 0 "X").heap[0]? =
      (refStore0.heap[0]?).map (fun u => { u with firstName := "X" }) :=
  ⟨(C4_shallow_copy refStore0 0 "X" (by decide)).2.1,
   (C4_shallow_copy refStore0 0 "X" (by decide)).2.2⟩

/-- Claim C5: `updateUser` validates the incoming patch alone.  When the id
is present, a patch failing validation determines the full outcome — the
error value, the emitted event and the unchanged state are functions of the
patch only, identical for any two stored records — and a patch passing
validation never produces a validation error (only the duplicate-email
failure or success remain). -/
theorem C5_validation_depends_only_on_patch (st : ServiceState) (now : String)
    (idArg : IdArg) (d : UserData) (idx : Nat) (orig : User)
    (hfound : findWithIdx (fun u => idEq (parseIntArg idArg) u.id) st.users =
      some (idx, orig)) :
    ((validateUser d).isValid = false →
      (updateUser st now idArg d).result =
        Except.error (String.intercalate ", " (validateUser d).errors) ∧
      (updateUser st now idArg d).events =
        [Event.error (String.intercalate ", " (validateUser d).errors) "update"] ∧
      (updateUser st now idArg d).state = st) ∧
    ((validateUser d).isValid = true →
      (updateUser st now idArg d).result = Except.error dupEmailMsg ∨
      ∃ u, (updateUser st now idArg d).result = Except.ok u) := by
  constructor
  · intro hv
    refine ⟨?_, ?_, ?_⟩ <;> simp [updateUser, updateUserCore, hfound, hv]
  · intro hv
    by_cases hdup : (match findUserByEmail st.users (d.email.getD "") with
        | some ex => !(idEq (parseIntArg idArg) ex.id)
        | none => false)
    · left
      simp [updateUser, updateUserCore, hfound, hv, hdup, dupEmailMsg]
    · right
      rw [Bool.not_eq_true] at hdup
      exact ⟨applyPatch orig d now, by simp [updateUser, updateUserCore, hfound, hv, hdup]⟩

/-- Witness for C5: the empty patch fails validation against the one-record
store with the joined required-field messages, independently of the stored
record. -/
theorem C5_witness :
    (updateUser oneUserState "t" (IdArg.num 1) emptyInput).result =
      Except.error (String.intercalate ", " (validateUser emptyInput).errors) :=
  ((C5_validation_depends_only_on_patch oneUserState "t" (IdArg.num 1) emptyInput 0 user1
    (by decide)).1 (by decide)).1

theorem createUser_no_bulk (st : ServiceState) (now : String) (d : UserData) :
    ∀ e ∈ (createUser st now d).events, isBulk e = false := by
  by_cases hv : (validateUser d).isValid
  · cases hfind : findUserByEmail st.users (d.email.getD "") with
    | some u => simp [createUser, hv, hfind, isBulk]
    | none => simp [createUser, hv, hfind, isBulk]
  · rw [Bool.not_eq_true] at hv
    simp [createUser, hv, isBulk]

theorem importLoop_spec (now : String) :
    ∀ (ds : List UserData) (st : ServiceState),
      (importLoop st now ds).success.length + (importLoop st now ds).failed.length =
        ds.length ∧
      ∀ e ∈ (importLoop st now ds).events, isBulk e = false := by
  intro ds
  induction ds with
  | nil => intro st; simp [importLoop]
  | cons d ds ih =>
      intro st
      cases hr : (createUser st now d).result with
      | ok u =>
          obtain ⟨ihlen, ihev⟩ := ih (createUser st now d).state
          constructor
          · simp only [importLoop, hr, List.length_cons, List.length]
            omega
          · intro e he
            simp only [importLoop, hr, List.mem_append] at he
            rcases he with he | he
            · exact createUser_no_bulk st now d e he
            · exact ihev e he
      | error m =>
          obtain ⟨ihlen, ihev⟩ := ih (createUser st now d).state
          constructor
          · simp only [importLoop, hr, List.length_cons, List.length]
            omega
          · intro e he
            simp only [importLoop, hr, List.mem_append] at he
            rcases he with he | he
            · exact createUser_no_bulk st now d e he
            · exact ihev e he

/-- Claim C6: `importUsers` runs `createUser` per entry in order, reports
every entry in exactly one of the two result lists (success length plus
failed length equals the input length), and emits exactly one `bulkImport`
event, after all other events, carrying the returned results; on the
concrete scenario `[inputA, missingEmail, inputC]` it yields 2 successes
and 1 failure. -/
theorem C6_importUsers (st : ServiceState) (now : String) (ds : List UserData) :
    ((importUsers st now ds).success.length + (importUsers st now ds).failed.length =
      ds.length) ∧
    (∃ pre, (importUsers st now ds).events =
        pre ++ [Event.bulkImport (importUsers st now ds).success
          (importUsers st now ds).failed] ∧
        ∀ e ∈ pre, isBulk e = false) ∧
    ((importUsers initialService "t" [inputA, missingEmail, inputC]).success.length = 2 ∧
     (importUsers initialService "t" [inputA, missingEmail, inputC]).failed.length = 1) := by
  obtain ⟨hlen, hev⟩ := importLoop_spec now ds st
  refine ⟨by simpa [importUsers] using hlen, ⟨(importLoop st now ds).events, ?_, hev⟩, ?_, ?_⟩
  · simp [importUsers]
  · decide
  · decide

/-- Claim C7: for every store state, `saveUsers` followed by `loadUsers` on
a fresh service instance backed by the same persistence slot reproduces
exactly the saved records — same ids, same field values, same timestamps,
in the same order — and emits only `usersLoaded` (the sample-data seeding
path is not taken). -/
theorem C7_save_load_roundtrip (st : ServiceState) (slot : Option (List User))
    (now : String) :
    (loadUsers (freshOn (saveUsers (mkWorld st slot)).1.storage) now).1.service.users =
      st.users ∧
    (loadUsers (freshOn (saveUsers (mkWorld st slot)).1.storage) now).2 =
      [Event.usersLoaded st.users] := by
  constructor
  · simp [saveUsers, loadUsers, mkWorld, freshOn]
  · simp [saveUsers, loadUsers, mkWorld, freshOn]

theorem if_push (c : Prop) [Decidable c] (X : List String) (m : String) :
    (if c then X ++ [m] else X) = X ++ (if c then [m] else []) := by
  split_ifs <;> simp

theorem requiredErrors_eq (u : UserData) :
    (["firstName", "lastName", "email", "phone", "userType"].foldl
      (fun acc f => if jsBlank (getField u f) then acc ++ [f ++ " is required"] else acc)
      []) =
    (if jsBlank u.firstName then ["firstName is required"] else []) ++
    (if jsBlank u.lastName then ["lastName is required"] else []) ++
    (if jsBlank u.email then ["email is required"] else []) ++
    (if jsBlank u.phone then ["phone is required"] else []) ++
    (if jsBlank u.userType then ["userType is required"] else []) := by
  simp only [List.foldl, getField]
  split_ifs <;> simp

/-- Claim C8: `validateUser` runs all applicable checks without
short-circuiting and returns the accumulated error list — one required
message per blank field in the fixed field order, then the email-format,
user-type and status messages when those checks apply and fail — and
`isValid` holds exactly when the error list is empty.  (The defined
function is pure, so the call has no side effects.) -/
theorem C8_validateUser_characterization (u : UserData) :
    (validateUser u).errors = specValidationErrors u ∧
    ((validateUser u).isValid = true ↔ (validateUser u).errors = []) := by
  constructor
  · show validationErrors u = specValidationErrors u
    rw [validationErrors, specValidationErrors, requiredErrors_eq]
    cases hm : u.email <;> cases ht : u.userType <;> cases hs : u.status <;>
      simp only [if_push] <;> simp [truthyS, List.append_assoc]
  · simp [validateUser, List.length_eq_zero]

theorem createUser_error_event (st : ServiceState) (now : String) (d : UserData)
    (m : String) (h : (createUser st now d).result = Except.error m) :
    (createUser st now d).events = [Event.error m "create"] := by
  by_cases hv : (validateUser d).isValid
  · cases hfind : findUserByEmail st.users (d.email.getD "") with
    | some u =>
        simp [createUser, hv, hfind] at h ⊢
        simp [h]
    | none => simp [createUser, hv, hfind] at h
  · rw [Bool.not_eq_true] at hv
    simp [createUser, hv] at h ⊢
    simp [h]

theorem updateUser_error_event (st : ServiceState) (now : String) (i : IdArg)
    (d : UserData) (m : String) (h : (updateUser st now i d).result = Except.error m) :
    (updateUser st now i d).events = [Event.error m "update"] := by
  cases hfind : findWithIdx (fun u => idEq (parseIntArg i) u.id) st.users with
  | none =>
      simp [updateUser, updateUserCore, hfind] at h ⊢
      simp [h]
  | some r =>
      obtain ⟨idx, orig⟩ := r
      by_cases hv : (validateUser d).isValid
      · by_cases hdup : (match findUserByEmail st.users (d.email.getD "") with
            | some ex => !(idEq (parseIntArg i) ex.id)
            | none => false)
        · simp [updateUser, updateUserCore, hfind, hv, hdup] at h ⊢
          simp [h]
        · rw [Bool.not_eq_true] at hdup
          simp [updateUser, updateUserCore, hfind, hv, hdup] at h
      · rw [Bool.not_eq_true] at hv
        simp [updateUser, updateUserCore, hfind, hv] at h ⊢
        simp [h]

theorem deleteUser_error_event (st : ServiceState) (i : IdArg) (m : String)
    (h : (deleteUser st i).result = Except.error m) :
    (deleteUser st i).events = [Event.error m "delete"] := by
  cases hfind : findWithIdx (fun u => idEq (parseIntArg i) u.id) st.users with
  | none =>
      simp [deleteUser, deleteUserCore, hfind] at h ⊢
      simp [h]
  | some r =>
      obtain ⟨idx, u⟩ := r
      simp [deleteUser, deleteUserCore, hfind] at h

/-- Claim C9: every failing `createUser`, `updateUser` or `deleteUser` call
is recovered inside the service — the operations are total functions whose
failure case returns the caught message as a `{success:false, error}`
result (modelled `Except.error m`) and emits exactly the `error` event
carrying `{message, type}` with the matching operation type; no exception
escapes to the caller. -/
theorem C9_error_recovery :
    (∀ (st : ServiceState) (now : String) (d : UserData) (m : String),
        (createUser st now d).result = Except.error m →
        (createUser st now d).events = [Event.error m "create"]) ∧
    (∀ (st : ServiceState) (now : String) (i : IdArg) (d : UserData) (m : String),
        (updateUser st now i d).result = Except.error m →
        (updateUser st now i d).events = [Event.error m "update"]) ∧
    (∀ (st : ServiceState) (i : IdArg) (m : String),
        (deleteUser st i).result = Except.error m →
        (deleteUser st i).events = [Event.error m "delete"]) :=
  ⟨createUser_error_event, updateUser_error_event, deleteUser_error_event⟩

/-- Witness for C9: a failing create (invalid input), update (absent id)
and delete (absent id) each emit the matching error event. -/
theorem C9_witness :
    (createUser oneUserState "t" emptyInput).events =
      [Event.error (String.intercalate ", " (validateUser emptyInput).errors) "create"] ∧
    (updateUser oneUserState "t" (IdArg.num 2) emptyInput).events =
      [Event.error "User not found" "update"] ∧
    (deleteUser oneUserState (IdArg.num 2)).events =
      [Event.error "User not found" "delete"] :=
  ⟨C9_error_recovery.1 oneUserState "t" emptyInput _ rfl,
   C9_error_recovery.2.1 oneUserState "t" (IdArg.num 2) emptyInput _ rfl,
   C9_error_recovery.2.2 oneUserState (IdArg.num 2) _ rfl⟩

/-- Claim C10: the id argument of `getUserById`, `updateUser` and
`deleteUser` is coerced with `parseInt` before comparison with stored ids,
so whenever the leading decimal digits of a string `s` denote `n`, passing
`s` and passing the number `n` produce identical results — the operations
address the same record. -/
theorem C10_parseInt_coercion (st : ServiceState) (now : String) (d : UserData)
    (s : String) (n : Nat) (h : jsParseInt s = some (n : Int)) :
    getUserById st (IdArg.str s) = getUserById st (IdArg.num n) ∧
    updateUser st now (IdArg.str s) d = updateUser st now (IdArg.num n) d ∧
    deleteUser st (IdArg.str s) = deleteUser st (IdArg.num n) := by
  refine ⟨?_, ?_, ?_⟩ <;> simp [getUserById, updateUser, deleteUser, parseIntArg, h]

/-- Witness for C10: the string "3x" addresses the record with id 3 exactly
as the number 3 does. -/
theorem C10_witness :
    getUserById threeState (IdArg.str "3x") = getUserById threeState (IdArg.num 3) ∧
    deleteUser threeState (IdArg.str "3x") = deleteUser threeState (IdArg.num 3) :=
  ⟨(C10_parseInt_coercion threeState "t" emptyInput "3x" 3 (by decide)).1,
   (C10_parseInt_coercion threeState "t" emptyInput "3x" 3 (by decide)).2.2⟩
